import Mathlib

/-!
# Verification of the Playwright D365 framework's form/field/factory layer

This file gives a shallow embedding of the repository's attribute accessor
(`src/framework/modules/Attribute.ts`), subgrid reader
(`src/framework/components/SubGrid.ts`) and the test-data factories
(`src/tests/data/factories/AccountFactory.ts`, `ContactFactory.ts`),
together with executable models of the JavaScript host primitives the code
relies on (`Date.prototype.toISOString`, `Date.parse`, template-literal
number rendering, `String.prototype.toLowerCase`), and proves the spec's
claims about them.

Machine integers are modelled as `Nat`/`Int`; JavaScript `Date` objects are
modelled by their millisecond timestamp (an `Int`); fallible operations
return `Except String`.
-/

set_option maxHeartbeats 1000000
set_option maxRecDepth 4000

/-! ## Model of JavaScript number-to-decimal-string rendering

JavaScript renders an integral Number in a template literal as its decimal
digits (ECMA-262 `Number::toString`).  We model this on `Nat` with a
fuel-based structural recursion so the kernel can evaluate it. -/

/-- The decimal digit character for `n % 10`. -/
def digitChar (n : Nat) : Char :=
  match n % 10 with
  | 0 => '0' | 1 => '1' | 2 => '2' | 3 => '3' | 4 => '4'
  | 5 => '5' | 6 => '6' | 7 => '7' | 8 => '8' | _ => '9'

/-- Decimal digits of `n`, most significant first; `fuel` bounds the recursion
(`fuel ≥ n + 1` always suffices). -/
def natDigitsAux : Nat → Nat → List Char
  | 0, _ => []
  | fuel + 1, n =>
    if n < 10 then [digitChar n]
    else natDigitsAux fuel (n / 10) ++ [digitChar (n % 10)]

/-- Model of ECMAScript decimal rendering of a nonnegative integral Number. -/
def jsNatToString (n : Nat) : String :=
  String.mk (natDigitsAux (n + 1) n)

/-- Reads a digit list back to the `Nat` it denotes (fold of base-10 steps). -/
def digitsToNat (cs : List Char) : Nat :=
  cs.foldl (fun acc c => 10 * acc + (c.toNat - 48)) 0

theorem digitChar_toNat (n : Nat) : (digitChar n).toNat = 48 + n % 10 := by
  have h : n % 10 < 10 := Nat.mod_lt _ (by decide)
  unfold digitChar
  interval_cases h : n % 10 <;> simp [h]

theorem digitChar_isDigit (n : Nat) : 48 ≤ (digitChar n).toNat ∧ (digitChar n).toNat ≤ 57 := by
  rw [digitChar_toNat]; omega

theorem digitsToNat_append (l : List Char) (c : Char) :
    digitsToNat (l ++ [c]) = 10 * digitsToNat l + (c.toNat - 48) := by
  simp [digitsToNat, List.foldl_append]

theorem natDigitsAux_spec (fuel : Nat) : ∀ n, n < fuel →
    digitsToNat (natDigitsAux fuel n) = n ∧
    ∀ c ∈ natDigitsAux fuel n, 48 ≤ c.toNat ∧ c.toNat ≤ 57 := by
  induction fuel with
  | zero => intro n h; omega
  | succ fuel ih =>
    intro n h
    rw [natDigitsAux]
    by_cases h10 : n < 10
    · simp only [if_pos h10]
      refine ⟨?_, ?_⟩
      · simp [digitsToNat, digitChar_toNat]; omega
      · intro c hc
        simp at hc
        subst hc
        exact digitChar_isDigit n
    · simp only [if_neg h10]
      have hrec : n / 10 < fuel := by omega
      obtain ⟨h1, h2⟩ := ih (n / 10) hrec
      refine ⟨?_, ?_⟩
      · rw [digitsToNat_append, h1, digitChar_toNat]; omega
      · intro c hc
        simp only [List.mem_append, List.mem_singleton] at hc
        rcases hc with hc | hc
        · exact h2 c hc
        · subst hc; exact digitChar_isDigit _

/-- Rendering a `Nat` to decimal digits and reading it back is the identity. -/
theorem digitsToNat_jsNatToString (n : Nat) :
    digitsToNat (jsNatToString n).data = n :=
  (natDigitsAux_spec (n + 1) n (Nat.lt_succ_self n)).1

/-- No character of the decimal rendering is a space. -/
theorem jsNatToString_no_space (n : Nat) : ∀ c ∈ (jsNatToString n).data, c ≠ ' ' := by
  intro c hc
  have := (natDigitsAux_spec (n + 1) n (Nat.lt_succ_self n)).2 c hc
  intro hsp
  subst hsp
  simp at this

/-- Decimal rendering is injective. -/
theorem jsNatToString_injective : Function.Injective jsNatToString := by
  intro a b hab
  have ha := digitsToNat_jsNatToString a
  have hb := digitsToNat_jsNatToString b
  rw [hab] at ha
  omega

/-! ## Model of the ECMAScript Date built-in (UTC Gregorian calendar)

`Attribute.ts` round-trips datetime values through the host functions
`Date.prototype.toISOString` and `Date.parse` / `new Date(string)`.  These
are not repository code; we model their semantics as specified by
ECMA-262 (`YearFromTime`, `MonthFromTime`, `DateFromTime`,
`Date.prototype.toISOString`, and the date-time string format consumed by
`Date.parse`).  A JavaScript `Date` is represented by its millisecond
timestamp `ms : Int`; it is a valid (non-NaN) Date iff
`ms.natAbs ≤ 8640000000000000`. -/

/-- ECMA-262 `DaysInYear`: proleptic Gregorian leap-year rule.  (On `Int`,
`%` is Euclidean remainder, which agrees with the mathematical modulo used
by the ECMA specification.) -/
def isLeap (y : Int) : Bool :=
  decide ((y % 4 = 0 ∧ ¬ y % 100 = 0) ∨ y % 400 = 0)

/-- Number of days in year `y`. -/
def daysInYear (y : Int) : Int :=
  if isLeap y then 366 else 365

/-- ECMA-262 `DayFromYear`: day number (days since the epoch 1970-01-01)
of the first day of year `y`.  (`/` on `Int` is Euclidean division, which
coincides with the specification's `floor` since the divisors are
positive.) -/
def dayFromYear (y : Int) : Int :=
  365 * (y - 1970) + (y - 1969) / 4 - (y - 1901) / 100 + (y - 1601) / 400

theorem dayFromYear_succ (y : Int) :
    dayFromYear (y + 1) = dayFromYear y + daysInYear y := by
  unfold dayFromYear daysInYear
  by_cases h : isLeap y = true
  · rw [if_pos h]
    simp only [isLeap, decide_eq_true_eq] at h
    omega
  · rw [if_neg h]
    simp only [isLeap, decide_eq_true_eq] at h
    omega

theorem daysInYear_bounds (y : Int) : 365 ≤ daysInYear y ∧ daysInYear y ≤ 366 := by
  unfold daysInYear
  by_cases h : isLeap y <;> simp [h]

/-- Walks from year 1970 to the year containing day `d`, maintaining the
remaining day offset; `fuel` bounds the structural recursion.  Returns the
pair (year, day-of-year). -/
def yearOfDayAux : Nat → Int → Int → Int × Int
  | 0, y, d => (y, d)
  | fuel + 1, y, d =>
    if d < 0 then yearOfDayAux fuel (y - 1) (d + daysInYear (y - 1))
    else if daysInYear y ≤ d then yearOfDayAux fuel (y + 1) (d - daysInYear y)
    else (y, d)

/-- ECMA-262 `YearFromTime` together with the day offset inside the year:
the unique pair `(y, doy)` with `dayFromYear y + doy = d` and
`0 ≤ doy < daysInYear y`. -/
def yearOfDay (d : Int) : Int × Int :=
  yearOfDayAux (d.natAbs + 2) 1970 d

/-- When the day offset is already inside the year, the walk stops at once,
whatever fuel remains. -/
theorem yearOfDayAux_inRange (fuel : Nat) (y d : Int)
    (h0 : 0 ≤ d) (h1 : d < daysInYear y) :
    yearOfDayAux fuel y d = (y, d) := by
  cases fuel with
  | zero => rfl
  | succ fuel =>
    rw [yearOfDayAux]
    rw [if_neg (by omega), if_neg (by omega)]

theorem dayFromYear_pred (y : Int) :
    dayFromYear (y - 1) + daysInYear (y - 1) = dayFromYear y := by
  have h := dayFromYear_succ (y - 1)
  have h2 : y - 1 + 1 = y := by ring
  rw [h2] at h
  omega

theorem yearOfDayAux_spec (fuel : Nat) : ∀ y d : Int,
    d.natAbs + 2 ≤ 365 * fuel →
    dayFromYear (yearOfDayAux fuel y d).1 + (yearOfDayAux fuel y d).2 =
      dayFromYear y + d ∧
    0 ≤ (yearOfDayAux fuel y d).2 ∧
    (yearOfDayAux fuel y d).2 < daysInYear (yearOfDayAux fuel y d).1 := by
  induction fuel with
  | zero => intro y d h; omega
  | succ fuel ih =>
    intro y d h
    rw [yearOfDayAux]
    by_cases hneg : d < 0
    · rw [if_pos hneg]
      have hb := daysInYear_bounds (y - 1)
      have hstep := dayFromYear_pred y
      by_cases hstop : d + daysInYear (y - 1) < 0
      · -- still negative after the step: the offset shrank by ≥ 365
        have := ih (y - 1) (d + daysInYear (y - 1)) (by omega)
        omega
      · -- landed in [0, daysInYear (y-1)): the walk stops at the next step
        rw [yearOfDayAux_inRange fuel (y - 1) _ (by omega) (by omega)]
        constructor
        · simp only []
          omega
        · constructor
          · simp only []
            omega
          · simp only []
            omega
    · rw [if_neg hneg]
      by_cases hge : daysInYear y ≤ d
      · rw [if_pos hge]
        have hb := daysInYear_bounds y
        have hstep := dayFromYear_succ y
        have := ih (y + 1) (d - daysInYear y) (by omega)
        omega
      · rw [if_neg hge]
        constructor
        · simp only []
        · constructor
          · simp only []
            omega
          · simp only []
            omega

theorem yearOfDay_spec (d : Int) :
    dayFromYear (yearOfDay d).1 + (yearOfDay d).2 = d ∧
    0 ≤ (yearOfDay d).2 ∧ (yearOfDay d).2 < daysInYear (yearOfDay d).1 := by
  have h := yearOfDayAux_spec (d.natAbs + 2) 1970 d (by omega)
  unfold yearOfDay
  have h1970 : dayFromYear 1970 = 0 := by unfold dayFromYear; decide
  omega

/-- Month lengths (March is index 2), per ECMA-262 `MonthFromTime`. -/
def monthLengths (leap : Bool) : List Int :=
  [31, if leap then 29 else 28, 31, 30, 31, 30, 31, 31, 30, 31, 30, 31]

/-- Walks the month-length table: given the remaining day offset, returns
(1-based month, 1-based day of month). -/
def monthOfDoyAux : List Int → Int → Int → Int × Int
  | [], m, d => (m, d + 1)
  | len :: rest, m, d =>
    if d < len then (m, d + 1) else monthOfDoyAux rest (m + 1) (d - len)

/-- ECMA-262 `MonthFromTime` / `DateFromTime` combined: 1-based month and
day of month from a 0-based day of year. -/
def monthOfDoy (leap : Bool) (doy : Int) : Int × Int :=
  monthOfDoyAux (monthLengths leap) 1 doy

/-- Day of year (0-based) from 1-based month and day of month: sums the
lengths of the preceding months. -/
def doyOfMonthAux : List Int → Int → Int → Int
  | [], _, acc => acc
  | len :: rest, m, acc =>
    if m ≤ 1 then acc else doyOfMonthAux rest (m - 1) (acc + len)

def doyOfMonth (leap : Bool) (m d : Int) : Int :=
  doyOfMonthAux (monthLengths leap) m 0 + (d - 1)

/-- Boolean month-table roundtrip check at one day-of-year value. -/
def monthCheck (leap : Bool) (doyn : Nat) : Bool :=
  let p := monthOfDoy leap (doyn : Int)
  decide (doyOfMonth leap p.1 p.2 = (doyn : Int) ∧ 1 ≤ p.1 ∧ p.1 ≤ 12 ∧
    1 ≤ p.2 ∧ p.2 ≤ 31)

theorem monthCheck_leap : ∀ n < 366, monthCheck true n = true := by decide

theorem monthCheck_common : ∀ n < 365, monthCheck false n = true := by decide

theorem monthOfDoy_roundtrip (leap : Bool) (doy : Int)
    (h0 : 0 ≤ doy) (h1 : doy < if leap then 366 else 365) :
    doyOfMonth leap (monthOfDoy leap doy).1 (monthOfDoy leap doy).2 = doy ∧
    1 ≤ (monthOfDoy leap doy).1 ∧ (monthOfDoy leap doy).1 ≤ 12 ∧
    1 ≤ (monthOfDoy leap doy).2 ∧ (monthOfDoy leap doy).2 ≤ 31 := by
  have hcast : ((doy.toNat : Nat) : Int) = doy := Int.toNat_of_nonneg h0
  have hmc : monthCheck leap doy.toNat = true := by
    cases leap
    · exact monthCheck_common doy.toNat (by simp at h1; omega)
    · exact monthCheck_leap doy.toNat (by simp at h1; omega)
  unfold monthCheck at hmc
  simp only [hcast] at hmc
  exact of_decide_eq_true hmc

/-! ## ISO-8601 rendering and parsing (ECMA-262 date-time string format) -/

/-- Fixed-width zero-padded decimal renderings. -/
def pad2 (n : Nat) : List Char := [digitChar (n / 10), digitChar n]

def pad3 (n : Nat) : List Char := [digitChar (n / 100), digitChar (n / 10), digitChar n]

def pad4 (n : Nat) : List Char :=
  [digitChar (n / 1000), digitChar (n / 100), digitChar (n / 10), digitChar n]

def pad6 (n : Nat) : List Char :=
  [digitChar (n / 100000), digitChar (n / 10000), digitChar (n / 1000),
   digitChar (n / 100), digitChar (n / 10), digitChar n]

/-- The numeric value of a decimal digit character, if it is one. -/
def digitVal (c : Char) : Option Nat :=
  if 48 ≤ c.toNat ∧ c.toNat ≤ 57 then some (c.toNat - 48) else none

def read2 : List Char → Option (Nat × List Char)
  | a :: b :: rest =>
    (digitVal a).bind fun x1 =>
    (digitVal b).map fun x2 => (10 * x1 + x2, rest)
  | _ => none

def read3 : List Char → Option (Nat × List Char)
  | a :: b :: c :: rest =>
    (digitVal a).bind fun x1 =>
    (digitVal b).bind fun x2 =>
    (digitVal c).map fun x3 => (100 * x1 + 10 * x2 + x3, rest)
  | _ => none

def read4 : List Char → Option (Nat × List Char)
  | a :: b :: c :: d :: rest =>
    (digitVal a).bind fun x1 =>
    (digitVal b).bind fun x2 =>
    (digitVal c).bind fun x3 =>
    (digitVal d).map fun x4 => (1000 * x1 + 100 * x2 + 10 * x3 + x4, rest)
  | _ => none

def read6 : List Char → Option (Nat × List Char)
  | a :: b :: c :: d :: e :: f :: rest =>
    (digitVal a).bind fun x1 =>
    (digitVal b).bind fun x2 =>
    (digitVal c).bind fun x3 =>
    (digitVal d).bind fun x4 =>
    (digitVal e).bind fun x5 =>
    (digitVal f).map fun x6 =>
      (100000 * x1 + 10000 * x2 + 1000 * x3 + 100 * x4 + 10 * x5 + x6, rest)
  | _ => none

/-- Consumes one expected literal character. -/
def expectChar (c : Char) : List Char → Option (List Char)
  | x :: rest => if x = c then some rest else none
  | [] => none

theorem digitVal_digitChar (k : Nat) : digitVal (digitChar k) = some (k % 10) := by
  unfold digitVal
  rw [if_pos]
  · rw [digitChar_toNat]
    congr 1
    omega
  · rw [digitChar_toNat]
    omega

theorem read2_pad2 (n : Nat) (h : n < 100) (rest : List Char) :
    read2 (pad2 n ++ rest) = some (n, rest) := by
  simp [pad2, read2, digitVal_digitChar]
  omega

theorem read3_pad3 (n : Nat) (h : n < 1000) (rest : List Char) :
    read3 (pad3 n ++ rest) = some (n, rest) := by
  simp [pad3, read3, digitVal_digitChar]
  omega

theorem read4_pad4 (n : Nat) (h : n < 10000) (rest : List Char) :
    read4 (pad4 n ++ rest) = some (n, rest) := by
  simp [pad4, read4, digitVal_digitChar]
  omega

theorem read6_pad6 (n : Nat) (h : n < 1000000) (rest : List Char) :
    read6 (pad6 n ++ rest) = some (n, rest) := by
  simp [pad6, read6, digitVal_digitChar]
  omega

theorem expectChar_cons (c : Char) (rest : List Char) :
    expectChar c (c :: rest) = some rest := by
  simp [expectChar]

/-- Model of ECMA-262 `Date.prototype.toISOString` on a millisecond
timestamp: `YYYY-MM-DDTHH:MM:SS.sssZ` with a six-digit expanded year
(`+YYYYYY` / `-YYYYYY`) outside `[0, 9999]`. -/
def toISOChars (ms : Int) : List Char :=
  let days := ms / 86400000
  let tod := (ms % 86400000).toNat
  let p := yearOfDay days
  let q := monthOfDoy (isLeap p.1) p.2
  let yearCs :=
    if 0 ≤ p.1 ∧ p.1 ≤ 9999 then pad4 p.1.toNat
    else if p.1 < 0 then '-' :: pad6 (-p.1).toNat
    else '+' :: pad6 p.1.toNat
  yearCs ++ '-' :: pad2 q.1.toNat ++ '-' :: pad2 q.2.toNat ++
    'T' :: pad2 (tod / 3600000) ++ ':' :: pad2 (tod % 3600000 / 60000) ++
    ':' :: pad2 (tod % 60000 / 1000) ++ '.' :: pad3 (tod % 1000) ++ ['Z']

def jsToISOString (ms : Int) : String := String.mk (toISOChars ms)

/-- Parses the year field of the ECMA-262 date-time string format
(four digits, or a sign followed by six digits). -/
def parseYear (cs : List Char) : Option (Int × List Char) :=
  if cs.head? = some '+' then (read6 cs.tail).map fun p => ((p.1 : Int), p.2)
  else if cs.head? = some '-' then (read6 cs.tail).map fun p => (-(p.1 : Int), p.2)
  else (read4 cs).map fun p => ((p.1 : Int), p.2)

/-- Reads a separator character followed by a two-digit group. -/
def readSep2 (sep : Char) (cs : List Char) : Option (Nat × List Char) :=
  match expectChar sep cs with
  | none => none
  | some cs => read2 cs

/-- Parses the `YYYY-MM-DD` date part, returning year, month, day. -/
def parseYMD (cs : List Char) : Option (Int × Nat × Nat × List Char) :=
  match parseYear cs with
  | none => none
  | some (y, cs) =>
    match readSep2 '-' cs with
    | none => none
    | some (m, cs) =>
      match readSep2 '-' cs with
      | none => none
      | some (d, cs) => some (y, m, d, cs)

/-- Parses the `THH:MM:SS` time part, returning hour, minute, second. -/
def parseHMS (cs : List Char) : Option (Nat × Nat × Nat × List Char) :=
  match readSep2 'T' cs with
  | none => none
  | some (h, cs) =>
    match readSep2 ':' cs with
    | none => none
    | some (mi, cs) =>
      match readSep2 ':' cs with
      | none => none
      | some (s, cs) => some (h, mi, s, cs)

/-- Parses the trailing `.sssZ` millisecond part (which must end the
string), returning the milliseconds. -/
def parseMillisZ (cs : List Char) : Option Nat :=
  match expectChar '.' cs with
  | none => none
  | some cs =>
    match read3 cs with
    | none => none
    | some (ml, cs) =>
      match expectChar 'Z' cs with
      | none => none
      | some cs => if cs = [] then some ml else none

/-- Model of ECMA-262 `Date.parse` restricted to the date-time string
format that `toISOString` produces (the format the standard requires
`Date.parse` to accept exactly). -/
def parseISOChars (cs : List Char) : Option Int :=
  match parseYMD cs with
  | none => none
  | some (y, m, d, cs) =>
    match parseHMS cs with
    | none => none
    | some (h, mi, s, cs) =>
      match parseMillisZ cs with
      | none => none
      | some ml =>
        if 1 ≤ m ∧ m ≤ 12 ∧ 1 ≤ d ∧ d ≤ 31 ∧ h < 24 ∧ mi < 60 ∧ s < 60 then
          some ((dayFromYear y + doyOfMonth (isLeap y) (m : Int) (d : Int)) * 86400000
            + (h : Int) * 3600000 + (mi : Int) * 60000 + (s : Int) * 1000 + (ml : Int))
        else none

def jsDateParse (s : String) : Option Int := parseISOChars s.data

theorem digitChar_ne_plus (k : Nat) : digitChar k ≠ '+' := by
  intro h
  have h2 := congrArg Char.toNat h
  rw [digitChar_toNat] at h2
  have h3 : Char.toNat '+' = 43 := by decide
  rw [h3] at h2
  omega

theorem digitChar_ne_minus (k : Nat) : digitChar k ≠ '-' := by
  intro h
  have h2 := congrArg Char.toNat h
  rw [digitChar_toNat] at h2
  have h3 : Char.toNat '-' = 45 := by decide
  rw [h3] at h2
  omega

theorem parseYear_pad4 (n : Nat) (h : n < 10000) (rest : List Char) :
    parseYear (pad4 n ++ rest) = some ((n : Int), rest) := by
  have hh : (pad4 n ++ rest).head? = some (digitChar (n / 1000)) := by
    simp [pad4]
  unfold parseYear
  rw [hh]
  rw [if_neg (by simp [digitChar_ne_plus]), if_neg (by simp [digitChar_ne_minus])]
  rw [read4_pad4 n h rest]
  rfl

theorem parseYear_neg_pad6 (n : Nat) (h : n < 1000000) (rest : List Char) :
    parseYear ('-' :: (pad6 n ++ rest)) = some (-(n : Int), rest) := by
  unfold parseYear
  rw [List.head?_cons, List.tail_cons]
  rw [if_neg (by decide), if_pos rfl]
  rw [read6_pad6 n h rest]
  rfl

theorem parseYear_pos_pad6 (n : Nat) (h : n < 1000000) (rest : List Char) :
    parseYear ('+' :: (pad6 n ++ rest)) = some ((n : Int), rest) := by
  unfold parseYear
  rw [List.head?_cons, List.tail_cons]
  rw [if_pos rfl]
  rw [read6_pad6 n h rest]
  rfl

theorem readSep2_build (c : Char) (k : Nat) (h : k < 100) (rest : List Char) :
    readSep2 c (c :: (pad2 k ++ rest)) = some (k, rest) := by
  unfold readSep2
  rw [expectChar_cons]
  exact read2_pad2 k h rest

theorem parseYMD_build (y : Int) (allCs : List Char)
    (m d : Nat) (hm : m < 100) (hd : d < 100) (rest : List Char)
    (hy : parseYear allCs = some (y, '-' :: (pad2 m ++ '-' :: (pad2 d ++ rest)))) :
    parseYMD allCs = some (y, m, d, rest) := by
  unfold parseYMD
  rw [hy]
  simp only []
  rw [readSep2_build _ m hm]
  simp only []
  rw [readSep2_build _ d hd]

theorem parseHMS_build (h mi s : Nat) (hh : h < 100) (hmi : mi < 100)
    (hs : s < 100) (rest : List Char) :
    parseHMS ('T' :: (pad2 h ++ ':' :: (pad2 mi ++ ':' :: (pad2 s ++ rest)))) =
      some (h, mi, s, rest) := by
  unfold parseHMS
  rw [readSep2_build _ h hh]
  simp only []
  rw [readSep2_build _ mi hmi]
  simp only []
  rw [readSep2_build _ s hs]

theorem parseMillisZ_build (ml : Nat) (h : ml < 1000) :
    parseMillisZ ('.' :: (pad3 ml ++ ['Z'])) = some ml := by
  unfold parseMillisZ
  rw [expectChar_cons]
  simp only []
  rw [read3_pad3 ml h]
  simp only []
  rw [expectChar_cons]
  simp

theorem parseISOChars_build (y : Int) (allCs : List Char)
    (m d h mi s ml : Nat) (hm1 : 1 ≤ m) (hm2 : m ≤ 12) (hd1 : 1 ≤ d) (hd2 : d ≤ 31)
    (hh : h < 24) (hmi : mi < 60) (hs : s < 60) (hml : ml < 1000)
    (hy : parseYear allCs = some (y, '-' :: (pad2 m ++ '-' :: (pad2 d ++ 'T' ::
        (pad2 h ++ ':' :: (pad2 mi ++ ':' :: (pad2 s ++ '.' ::
        (pad3 ml ++ ['Z'])))))))) :
    parseISOChars allCs =
      some ((dayFromYear y + doyOfMonth (isLeap y) (m : Int) (d : Int)) * 86400000
        + (h : Int) * 3600000 + (mi : Int) * 60000 + (s : Int) * 1000 + (ml : Int)) := by
  unfold parseISOChars
  rw [parseYMD_build y allCs m d (by omega) (by omega) _ hy]
  simp only []
  rw [parseHMS_build h mi s (by omega) (by omega) (by omega)]
  simp only []
  rw [parseMillisZ_build ml hml]
  simp only []
  rw [if_pos ⟨hm1, hm2, hd1, hd2, hh, hmi, hs⟩]

theorem dayFromYear_year_bound (y dd : Int) (h1 : dayFromYear y ≤ dd)
    (h2 : dd < dayFromYear y + 366) (h3 : dd.natAbs ≤ 100000001) :
    y.natAbs ≤ 280000 := by
  unfold dayFromYear at h1 h2
  omega

/-- `Date.parse` inverts `Date.prototype.toISOString` on every valid Date:
the ISO round trip is lossless to millisecond precision. -/
theorem parseISOChars_toISOChars (ms : Int) (hms : ms.natAbs ≤ 8640000000000000) :
    parseISOChars (toISOChars ms) = some ms := by
  obtain ⟨hsum, hdoy0, hdoy1⟩ := yearOfDay_spec (ms / 86400000)
  have hleap : (yearOfDay (ms / 86400000)).2 <
      if isLeap (yearOfDay (ms / 86400000)).1 then 366 else 365 := by
    unfold daysInYear at hdoy1
    exact hdoy1
  obtain ⟨hmd, hm1, hm2, hd1, hd2⟩ :=
    monthOfDoy_roundtrip (isLeap (yearOfDay (ms / 86400000)).1)
      (yearOfDay (ms / 86400000)).2 hdoy0 hleap
  have hdb := daysInYear_bounds (yearOfDay (ms / 86400000)).1
  have hyb : (yearOfDay (ms / 86400000)).1.natAbs ≤ 280000 :=
    dayFromYear_year_bound _ (ms / 86400000) (by omega) (by omega) (by omega)
  unfold toISOChars
  simp only [List.cons_append, List.append_assoc]
  by_cases hc1 : 0 ≤ (yearOfDay (ms / 86400000)).1 ∧ (yearOfDay (ms / 86400000)).1 ≤ 9999
  · rw [if_pos hc1]
    rw [parseISOChars_build ((yearOfDay (ms / 86400000)).1) _
      (Int.toNat (monthOfDoy (isLeap (yearOfDay (ms / 86400000)).1) (yearOfDay (ms / 86400000)).2).1)
      (Int.toNat (monthOfDoy (isLeap (yearOfDay (ms / 86400000)).1) (yearOfDay (ms / 86400000)).2).2)
      ((ms % 86400000).toNat / 3600000) ((ms % 86400000).toNat % 3600000 / 60000)
      ((ms % 86400000).toNat % 60000 / 1000) ((ms % 86400000).toNat % 1000)
      (by omega) (by omega) (by omega) (by omega) (by omega) (by omega) (by omega) (by omega)
      (by rw [parseYear_pad4 _ (by omega)]
          rw [Int.toNat_of_nonneg hc1.1])]
    rw [Int.toNat_of_nonneg (by omega : (0:Int) ≤ (monthOfDoy (isLeap (yearOfDay (ms / 86400000)).1) (yearOfDay (ms / 86400000)).2).1)]
    rw [Int.toNat_of_nonneg (by omega : (0:Int) ≤ (monthOfDoy (isLeap (yearOfDay (ms / 86400000)).1) (yearOfDay (ms / 86400000)).2).2)]
    rw [hmd]
    congr 1
    omega
  · rw [if_neg hc1]
    by_cases hc2 : (yearOfDay (ms / 86400000)).1 < 0
    · rw [if_pos hc2]
      simp only [List.cons_append, List.append_assoc]
      rw [parseISOChars_build ((yearOfDay (ms / 86400000)).1) _
        (Int.toNat (monthOfDoy (isLeap (yearOfDay (ms / 86400000)).1) (yearOfDay (ms / 86400000)).2).1)
        (Int.toNat (monthOfDoy (isLeap (yearOfDay (ms / 86400000)).1) (yearOfDay (ms / 86400000)).2).2)
        ((ms % 86400000).toNat / 3600000) ((ms % 86400000).toNat % 3600000 / 60000)
        ((ms % 86400000).toNat % 60000 / 1000) ((ms % 86400000).toNat % 1000)
        (by omega) (by omega) (by omega) (by omega) (by omega) (by omega) (by omega) (by omega)
        (by rw [parseYear_neg_pad6 _ (by omega)]
            congr 2
            omega)]
      rw [Int.toNat_of_nonneg (by omega : (0:Int) ≤ (monthOfDoy (isLeap (yearOfDay (ms / 86400000)).1) (yearOfDay (ms / 86400000)).2).1)]
      rw [Int.toNat_of_nonneg (by omega : (0:Int) ≤ (monthOfDoy (isLeap (yearOfDay (ms / 86400000)).1) (yearOfDay (ms / 86400000)).2).2)]
      rw [hmd]
      congr 1
      omega
    · rw [if_neg hc2]
      simp only [List.cons_append, List.append_assoc]
      rw [parseISOChars_build ((yearOfDay (ms / 86400000)).1) _
        (Int.toNat (monthOfDoy (isLeap (yearOfDay (ms / 86400000)).1) (yearOfDay (ms / 86400000)).2).1)
        (Int.toNat (monthOfDoy (isLeap (yearOfDay (ms / 86400000)).1) (yearOfDay (ms / 86400000)).2).2)
        ((ms % 86400000).toNat / 3600000) ((ms % 86400000).toNat % 3600000 / 60000)
        ((ms % 86400000).toNat % 60000 / 1000) ((ms % 86400000).toNat % 1000)
        (by omega) (by omega) (by omega) (by omega) (by omega) (by omega) (by omega) (by omega)
        (by rw [parseYear_pos_pad6 _ (by omega)]
            rw [Int.toNat_of_nonneg (by omega)])]
      rw [Int.toNat_of_nonneg (by omega : (0:Int) ≤ (monthOfDoy (isLeap (yearOfDay (ms / 86400000)).1) (yearOfDay (ms / 86400000)).2).1)]
      rw [Int.toNat_of_nonneg (by omega : (0:Int) ≤ (monthOfDoy (isLeap (yearOfDay (ms / 86400000)).1) (yearOfDay (ms / 86400000)).2).2)]
      rw [hmd]
      congr 1
      omega

/-- String-level version of the ISO round trip. -/
theorem jsDateParse_jsToISOString (ms : Int) (hms : ms.natAbs ≤ 8640000000000000) :
    jsDateParse (jsToISOString ms) = some ms := by
  unfold jsDateParse jsToISOString
  exact parseISOChars_toISOChars ms hms

/-! ## Model of the Xrm form state

`Attribute.ts` and `SubGrid.ts` run inside `page.evaluate` against
`window.Xrm.Page`.  We model the page state explicitly: an association list
of named attributes (each with its type, value, controls and metadata) and
an association list of named subgrid controls. -/

/-- A JavaScript value as held by a form field or passed across the
automation boundary. -/
inductive JSValue where
  | vNull : JSValue
  | vBool : Bool → JSValue
  | vNum : Int → JSValue
  | vStr : String → JSValue
  | vDate : Int → JSValue
  | vDateInvalid : JSValue
deriving DecidableEq

/-- A form control of an attribute: its own disabled/visible state plus the
visibility of its ancestor containers, nearest first (`ancestors.head?` is
the parent returned by `getParent()`, the next entry that parent's parent,
and so on; an empty list means `getParent()` is null). -/
structure FormControl where
  disabled : Bool
  visible : Bool
  ancestors : List Bool
deriving DecidableEq

/-- The per-control editability test of `Attribute.setValue`
(Attribute.ts lines 101-108): not disabled, visible, parent visible when a
parent exists, and grandparent visible when a grandparent exists.  Deeper
ancestors are not inspected. -/
def controlEditable (c : FormControl) : Bool :=
  !c.disabled && c.visible &&
  (match c.ancestors with
   | [] => true
   | p :: _ => p) &&
  (match c.ancestors with
   | [] => true
   | [_] => true
   | _ :: g :: _ => g)

/-- Modelled from the spec's words, for comparison with `controlEditable`
(the implementation): a control counts as editable only if it is not
disabled, is visible, and ALL its ancestor containers at every nesting
depth are visible. -/
def controlEditableSpec (c : FormControl) : Bool :=
  !c.disabled && c.visible && c.ancestors.all (fun b => b)

/-- A form attribute as exposed by the Xrm client API: its type tag,
current value, controls, the format descriptor returned by `getFormat()`,
the formatted value (the text a formatted-value query returns, e.g. an
option-set label), its dirty flag, its required level, and a counter of
`fireOnChange` notifications. -/
structure XrmAttribute where
  attrType : String
  value : JSValue
  controls : List FormControl
  format : String
  formattedText : String
  dirty : Bool
  requiredLevel : String
  fireCount : Nat
deriving DecidableEq

/-- One row of a subgrid: the raw `entity.getId()` (typically a braced
GUID) and the entity logical name. -/
structure SubGridRow where
  id : String
  entityType : String
deriving DecidableEq

/-- A subgrid control: its loaded rows in view order, the total record
count reported by `grid.getTotalRecordCount()`, the entity logical name,
and its visibility. -/
structure SubGridControl where
  rows : List SubGridRow
  totalRecordCount : Int
  entityName : String
  visible : Bool
deriving DecidableEq

/-- The page state: named attributes and named subgrid controls. -/
structure XrmPage where
  attrs : List (String × XrmAttribute)
  grids : List (String × SubGridControl)
deriving DecidableEq

/-- `window.Xrm.Page.getAttribute(name)`: first attribute with that name,
or null. -/
def getAttributeByName (p : XrmPage) (name : String) : Option XrmAttribute :=
  (p.attrs.find? (fun e => e.1 == name)).map (fun e => e.2)

/-- `window.Xrm.Page.getControl(name)` for subgrid controls. -/
def getGridControl (p : XrmPage) (name : String) : Option SubGridControl :=
  (p.grids.find? (fun e => e.1 == name)).map (fun e => e.2)

/-- Replaces the attribute `name` on the page (the in-page mutation of the
attribute object found by `getAttribute`). -/
def setAttr (p : XrmPage) (name : String) (a : XrmAttribute) : XrmPage :=
  { p with attrs := p.attrs.map (fun e => if e.1 == name then (name, a) else e) }

/-- `new Date(v)` (ECMA-262 Date constructor): a string argument is parsed
as a date-time string (an unparsable one yields an Invalid Date), a number
is taken as a timestamp. -/
def jsNewDate : JSValue → JSValue
  | JSValue.vStr s =>
    match jsDateParse s with
    | some t => JSValue.vDate t
    | none => JSValue.vDateInvalid
  | JSValue.vNum n => JSValue.vDate n
  | JSValue.vDate t => JSValue.vDate t
  | _ => JSValue.vDateInvalid

/-! ## The Attribute accessor (`src/framework/modules/Attribute.ts`) -/

namespace Attribute

/-- `SetValueSettings` (Attribute.ts lines 6-15): both fields optional. -/
structure SetValueSettings where
  settleTime : Option Nat := none
  forceValue : Option Bool := none
deriving DecidableEq

/-- The `safeSettings` merge of `setValue` (Attribute.ts lines 82-90):
defaults `settleTime := 500`, `forceValue := false`; a bare number becomes
`settleTime`; fields present in a structured settings object override the
defaults.  Returns (settleTime, forceValue). -/
def safeSettings (settings : Option (Nat ⊕ SetValueSettings)) : Nat × Bool :=
  match settings with
  | none => (500, false)
  | some (Sum.inl n) => (n, false)
  | some (Sum.inr s) => (s.settleTime.getD 500, s.forceValue.getD false)

/-- The settle pause performed after a successful write (Attribute.ts
line 125): `safeSettings.settleTime || 500` — JavaScript `||` replaces a
falsy merged settle time (0) by 500. -/
def settleWait (settings : Option (Nat ⊕ SetValueSettings)) : Nat :=
  if (safeSettings settings).1 = 0 then 500 else (safeSettings settings).1

/-- `Attribute.getValue` (Attribute.ts lines 42-68).  In the page: looks up
the attribute (throwing "not found" when absent), and for a `datetime`
attribute holding a Date encodes it as its ISO string before returning
across the boundary.  Outside: a string result of a `datetime` attribute
is decoded with `new Date(Date.parse(value))`. -/
def getValue (page : XrmPage) (attrName : String) : Except String JSValue :=
  match getAttributeByName page attrName with
  | none => Except.error ("Attribute '" ++ attrName ++ "' not found on form")
  | some attr =>
    let value := if attr.attrType == "datetime" then
        match attr.value with
        | JSValue.vDate t => JSValue.vStr (jsToISOString t)
        | v => v
      else attr.value
    if attr.attrType == "datetime" then
      match value with
      | JSValue.vStr s =>
        Except.ok (match jsDateParse s with
          | some t => JSValue.vDate t
          | none => JSValue.vDateInvalid)
      | v => Except.ok v
    else Except.ok value

/-- The in-page body of `Attribute.setValue` (Attribute.ts lines 95-122):
looks up the attribute (throwing "not found" when absent); unless
`forceValue`, requires some control to pass `controlEditable`, else throws
the "no unlocked and visible control" error; then writes the value (a
`datetime` attribute decodes the serialized argument with `new Date`) and
fires the change notification.  Both throw sites precede the write. -/
def setValueEval (page : XrmPage) (attrName : String) (val : JSValue)
    (force : Bool) : Except String XrmPage :=
  match getAttributeByName page attrName with
  | none => Except.error ("Attribute '" ++ attrName ++ "' not found on form")
  | some attr =>
    let editable := force || attr.controls.any controlEditable
    if !editable then
      Except.error ("Attribute '" ++ attrName ++
        "' has no unlocked and visible control, users can't set a value like that.")
    else
      let finalValue := if attr.attrType == "datetime" then jsNewDate val else val
      Except.ok (setAttr page attrName
        { attr with value := finalValue, fireCount := attr.fireCount + 1 })

/-- Result of one `setValue` call: the page afterwards, the rejection
message if the in-page body threw, and the settle pause performed (no
pause happens on a rejection, since `waitForTimeout` follows the awaited
`evaluate`). -/
structure SetValueOutcome where
  page : XrmPage
  error : Option String
  waited : Nat
deriving DecidableEq

/-- `Attribute.setValue` (Attribute.ts lines 77-126): merges the settings,
serializes a Date argument to its ISO string before crossing the
`page.evaluate` boundary (line 121), runs the in-page body, then pauses
`settleTime || 500` ms. -/
def setValue (page : XrmPage) (attrName : String) (value : JSValue)
    (settings : Option (Nat ⊕ SetValueSettings) := none) : SetValueOutcome :=
  let val := match value with
    | JSValue.vDate t => JSValue.vStr (jsToISOString t)
    | v => v
  match setValueEval page attrName val (safeSettings settings).2 with
  | Except.error e => { page := page, error := some e, waited := 0 }
  | Except.ok page2 => { page := page2, error := none, waited := settleWait settings }

/-- `Attribute.setValues` (Attribute.ts lines 135-139): applies `setValue`
to the entries in iteration order, awaiting each; a rejection stops the
loop.  Returns the page after the calls that ran and the first error, if
any. -/
def setValuesRun (page : XrmPage) (vals : List (String × JSValue))
    (settings : Option (Nat ⊕ SetValueSettings) := none) : XrmPage × Option String :=
  match vals with
  | [] => (page, none)
  | (n, v) :: rest =>
    let r := setValue page n v settings
    match r.error with
    | some e => (r.page, some e)
    | none => setValuesRun r.page rest settings

/-- `Attribute.getAttributeType` (Attribute.ts lines 146-153). -/
def getAttributeType (page : XrmPage) (attrName : String) : Except String String :=
  match getAttributeByName page attrName with
  | none => Except.error ("Attribute '" ++ attrName ++ "' not found on form")
  | some attr => Except.ok attr.attrType

/-- `Attribute.getFormattedValue` (Attribute.ts lines 160-167): despite its
name and doc comment, the body returns `attribute.getFormat()`. -/
def getFormattedValue (page : XrmPage) (attrName : String) : Except String String :=
  match getAttributeByName page attrName with
  | none => Except.error ("Attribute '" ++ attrName ++ "' not found on form")
  | some attr => Except.ok attr.format

/-- `Attribute.isDirty` (Attribute.ts lines 174-181). -/
def isDirty (page : XrmPage) (attrName : String) : Except String Bool :=
  match getAttributeByName page attrName with
  | none => Except.error ("Attribute '" ++ attrName ++ "' not found on form")
  | some attr => Except.ok attr.dirty

/-- `Attribute.getRequiredLevel` (Attribute.ts lines 28-35). -/
def getRequiredLevel (page : XrmPage) (attrName : String) : Except String String :=
  match getAttributeByName page attrName with
  | none => Except.error ("Attribute '" ++ attrName ++ "' not found on form")
  | some attr => Except.ok attr.requiredLevel

/-- `Attribute.setRequiredLevel` (Attribute.ts lines 188-198). -/
def setRequiredLevel (page : XrmPage) (attrName : String) (level : String) :
    Except String XrmPage :=
  match getAttributeByName page attrName with
  | none => Except.error ("Attribute '" ++ attrName ++ "' not found on form")
  | some attr => Except.ok (setAttr page attrName { attr with requiredLevel := level })

end Attribute

/-! ## The subgrid reader (`src/framework/components/SubGrid.ts`) -/

/-- Model of `String.prototype.toLowerCase` on one character, restricted to
ASCII (record identifiers are GUIDs). -/
def jsToLowerChar (c : Char) : Char :=
  if 65 ≤ c.toNat ∧ c.toNat ≤ 90 then Char.ofNat (c.toNat + 32) else c

/-- The identifier normalization of `SubGrid.getRecordIds`
(SubGrid.ts line 152): `rawId.replace(/[{}]/g, '').toLowerCase()` —
removes every curly brace, then lowercases. -/
def normalizeId (s : String) : String :=
  String.mk (((s.data.filter (fun c => !(c == '{') && !(c == '}'))).map jsToLowerChar))

namespace SubGrid

/-- `SubGrid.getRecordCount` (SubGrid.ts lines 14-26): returns `undefined`
(not an error) when the control is absent, else
`control.getGrid().getTotalRecordCount()`. -/
def getRecordCount (p : XrmPage) (subgridName : String) : Except String (Option Int) :=
  match getGridControl p subgridName with
  | none => Except.ok none
  | some g => Except.ok (some g.totalRecordCount)

/-- `SubGrid.getVisibleRecordCount` (SubGrid.ts lines 33-45): `undefined`
when absent, else `getRows().getLength()`. -/
def getVisibleRecordCount (p : XrmPage) (subgridName : String) :
    Except String (Option Nat) :=
  match getGridControl p subgridName with
  | none => Except.ok none
  | some g => Except.ok (some g.rows.length)

/-- `SubGrid.getEntityName` (SubGrid.ts lines 95-107): `undefined` when
absent, else `control.getEntityName()`. -/
def getEntityName (p : XrmPage) (subgridName : String) :
    Except String (Option String) :=
  match getGridControl p subgridName with
  | none => Except.ok none
  | some g => Except.ok (some g.entityName)

/-- `SubGrid.openNthRecord`, in-page part (SubGrid.ts lines 53-80): throws
"not found" when the control is absent and "out of range" when the index
reaches the row count, else returns the entity reference of the row. -/
def openNthRecord (p : XrmPage) (subgridName : String) (recordNumber : Nat) :
    Except String (String × String) :=
  match getGridControl p subgridName with
  | none => Except.error ("Subgrid control '" ++ subgridName ++ "' not found on form")
  | some g =>
    if recordNumber ≥ g.rows.length then
      Except.error ("Record index " ++ jsNatToString recordNumber ++
        " is out of range. Subgrid has " ++ jsNatToString g.rows.length ++ " records.")
    else
      let row := g.rows.getD recordNumber { id := "", entityType := "" }
      Except.ok (row.id, row.entityType)

/-- `SubGrid.refresh` (SubGrid.ts lines 114-126): throws "not found" when
the control is absent. -/
def refresh (p : XrmPage) (subgridName : String) : Except String Unit :=
  match getGridControl p subgridName with
  | none => Except.error ("Subgrid control '" ++ subgridName ++ "' not found on form")
  | some _ => Except.ok ()

/-- `SubGrid.getRecordIds` (SubGrid.ts lines 133-158): an empty list (not
an error) when the control is absent; else one normalized identifier per
row, in row order. -/
def getRecordIds (p : XrmPage) (subgridName : String) : Except String (List String) :=
  match getGridControl p subgridName with
  | none => Except.ok []
  | some g => Except.ok (g.rows.map (fun r => normalizeId r.id))

/-- `SubGrid.isVisible` (SubGrid.ts lines 165-177): `false` (not an error)
when the control is absent, else `control.getVisible()`. -/
def isVisible (p : XrmPage) (subgridName : String) : Except String Bool :=
  match getGridControl p subgridName with
  | none => Except.ok false
  | some g => Except.ok g.visible

end SubGrid

/-! ## The test-data factories
(`src/tests/data/factories/AccountFactory.ts`, `ContactFactory.ts`)

TypeScript optional properties are modelled with `Option`; `none` is an
absent / `undefined` property.  The OData binding keys
`parentaccountid@odata.bind`, `primarycontactid@odata.bind` and
`parentcustomerid_account@odata.bind` are rendered as the Lean fields
`parentaccountid_bind`, `primarycontactid_bind` and
`parentcustomerid_account_bind`. -/

/-- JavaScript truthiness of an optional string option: an absent value
and the empty string are falsy. -/
def strTruthy : Option String → Bool
  | none => false
  | some s => !(s == "")

/-- `CreateAccountOptions` (AccountFactory.ts lines 95-114). -/
structure CreateAccountOptions where
  name : Option String := none
  phone : Option String := none
  secondaryPhone : Option String := none
  email : Option String := none
  website : Option String := none
  addressLine1 : Option String := none
  city : Option String := none
  state : Option String := none
  postalCode : Option String := none
  country : Option String := none
  industry : Option Nat := none
  revenue : Option Int := none
  employees : Option Int := none
  description : Option String := none
  parentAccountId : Option String := none
  primaryContactId : Option String := none
deriving DecidableEq

/-- `AccountData` (AccountFactory.ts lines 41-89). -/
structure AccountData where
  name : String
  telephone1 : Option String := none
  telephone2 : Option String := none
  emailaddress1 : Option String := none
  websiteurl : Option String := none
  address1_line1 : Option String := none
  address1_city : Option String := none
  address1_stateorprovince : Option String := none
  address1_postalcode : Option String := none
  address1_country : Option String := none
  industrycode : Option Nat := none
  revenue : Option Int := none
  numberofemployees : Option Int := none
  description : Option String := none
  parentaccountid_bind : Option String := none
  primarycontactid_bind : Option String := none
deriving DecidableEq

namespace AccountFactory

/-- `AccountFactory.create` (AccountFactory.ts lines 144-174); `timestamp`
is the `Date.now()` value the call reads.  A truthy name option gives
`"<name> <timestamp>"`, else `"Test Account <timestamp>"`; string options
are copied only when truthy; `industry`, `revenue` and `employees` are
copied whenever not undefined; truthy relationship identifiers become
OData binding paths. -/
def create (options : CreateAccountOptions) (timestamp : Nat) : AccountData :=
  { name := if strTruthy options.name then
        options.name.getD "" ++ " " ++ jsNatToString timestamp
      else "Test Account " ++ jsNatToString timestamp
    telephone1 := if strTruthy options.phone then options.phone else none
    telephone2 := if strTruthy options.secondaryPhone then options.secondaryPhone else none
    emailaddress1 := if strTruthy options.email then options.email else none
    websiteurl := if strTruthy options.website then options.website else none
    address1_line1 := if strTruthy options.addressLine1 then options.addressLine1 else none
    address1_city := if strTruthy options.city then options.city else none
    address1_stateorprovince := if strTruthy options.state then options.state else none
    address1_postalcode := if strTruthy options.postalCode then options.postalCode else none
    address1_country := if strTruthy options.country then options.country else none
    industrycode := options.industry
    revenue := options.revenue
    numberofemployees := options.employees
    description := if strTruthy options.description then options.description else none
    parentaccountid_bind := if strTruthy options.parentAccountId then
        some ("/accounts(" ++ options.parentAccountId.getD "" ++ ")") else none
    primarycontactid_bind := if strTruthy options.primaryContactId then
        some ("/contacts(" ++ options.primaryContactId.getD "" ++ ")") else none }

/-- `AccountFactory.createBulk` (AccountFactory.ts lines 189-204): `count`
calls to `create`, the i-th (0-based) with the name option overridden to
`"<base> <i+1>"` (or `"Bulk Test Account <i+1>"` when the base name is not
truthy); `tss i` is the `Date.now()` value observed by the i-th call. -/
def createBulk (count : Nat) (options : CreateAccountOptions)
    (tss : Nat → Nat) : List AccountData :=
  (List.range count).map fun i =>
    create
      { options with
        name := some (if strTruthy options.name then
            options.name.getD "" ++ " " ++ jsNatToString (i + 1)
          else "Bulk Test Account " ++ jsNatToString (i + 1)) }
      (tss i)

end AccountFactory

/-- `CreateContactOptions` (ContactFactory.ts lines 54-66). -/
structure CreateContactOptions where
  firstname : Option String := none
  lastname : Option String := none
  email : Option String := none
  phone : Option String := none
  mobile : Option String := none
  jobTitle : Option String := none
  description : Option String := none
  preferredContactMethod : Option Nat := none
  accountId : Option String := none
deriving DecidableEq

/-- `ContactData` (ContactFactory.ts lines 21-48). -/
structure ContactData where
  firstname : String
  lastname : String
  emailaddress1 : Option String := none
  telephone1 : Option String := none
  mobilephone : Option String := none
  jobtitle : Option String := none
  description : Option String := none
  preferredcontactmethodcode : Option Nat := none
  parentcustomerid_account_bind : Option String := none
deriving DecidableEq

namespace ContactFactory

/-- `ContactFactory.create` (ContactFactory.ts lines 107-130). -/
def create (options : CreateContactOptions) (timestamp : Nat) : ContactData :=
  { firstname := if strTruthy options.firstname then options.firstname.getD "" else "Test"
    lastname := if strTruthy options.lastname then
        options.lastname.getD "" ++ " " ++ jsNatToString timestamp
      else "Contact " ++ jsNatToString timestamp
    emailaddress1 := if strTruthy options.email then options.email else none
    telephone1 := if strTruthy options.phone then options.phone else none
    mobilephone := if strTruthy options.mobile then options.mobile else none
    jobtitle := if strTruthy options.jobTitle then options.jobTitle else none
    description := if strTruthy options.description then options.description else none
    preferredcontactmethodcode := options.preferredContactMethod
    parentcustomerid_account_bind := if strTruthy options.accountId then
        some ("/accounts(" ++ options.accountId.getD "" ++ ")") else none }

end ContactFactory

/-! ## Helper lemmas about the accessor -/

theorem find_update (n : String) (a : XrmAttribute) :
    ∀ l : List (String × XrmAttribute),
    (l.find? (fun e => e.1 == n)).isSome →
    (l.map (fun e => if e.1 == n then (n, a) else e)).find? (fun e => e.1 == n)
      = some (n, a) := by
  intro l
  induction l with
  | nil => simp
  | cons hd tl ih =>
    intro h
    simp only [List.map_cons]
    by_cases hn : hd.1 == n
    · rw [if_pos hn]
      rw [List.find?_cons_of_pos]
      simp
    · rw [if_neg hn]
      rw [List.find?_cons_of_neg _ (by simpa using hn)]
      apply ih
      rw [List.find?_cons_of_neg _ (by simpa using hn)] at h
      exact h

/-- After `setAttr` replaces an attribute that was present, looking it up
returns the replacement. -/
theorem getAttributeByName_setAttr (p : XrmPage) (n : String) (a b : XrmAttribute)
    (h : getAttributeByName p n = some b) :
    getAttributeByName (setAttr p n a) n = some a := by
  unfold getAttributeByName setAttr
  unfold getAttributeByName at h
  simp only []
  rw [find_update n a p.attrs]
  · rfl
  · rcases hf : p.attrs.find? (fun e => e.1 == n) with _ | v
    · rw [hf] at h; simp at h
    · simp [hf]

/-- The serialization `setValue` applies to its value argument before
`page.evaluate` (Attribute.ts lines 92 and 121): a Date becomes its ISO
string. -/
def serializeValueArg : JSValue → JSValue
  | JSValue.vDate t => JSValue.vStr (jsToISOString t)
  | v => v

theorem setValue_eq (page : XrmPage) (attrName : String) (value : JSValue)
    (settings : Option (Nat ⊕ Attribute.SetValueSettings)) :
    Attribute.setValue page attrName value settings =
      match Attribute.setValueEval page attrName (serializeValueArg value)
          (Attribute.safeSettings settings).2 with
      | Except.error e => { page := page, error := some e, waited := 0 }
      | Except.ok page2 =>
        { page := page2, error := none, waited := Attribute.settleWait settings } := by
  unfold Attribute.setValue serializeValueArg
  cases value <;> rfl

/-- A successful `setValue`: the attribute exists and some control passes
the implemented editability check (or the check is forced off). -/
theorem setValue_success (page : XrmPage) (attrName : String) (attr : XrmAttribute)
    (value : JSValue) (settings : Option (Nat ⊕ Attribute.SetValueSettings))
    (hattr : getAttributeByName page attrName = some attr)
    (hedit : (Attribute.safeSettings settings).2 = true ∨
      attr.controls.any controlEditable = true) :
    Attribute.setValue page attrName value settings =
      { page := setAttr page attrName
          { attr with
            value := if attr.attrType == "datetime" then
                jsNewDate (serializeValueArg value)
              else serializeValueArg value,
            fireCount := attr.fireCount + 1 },
        error := none,
        waited := Attribute.settleWait settings } := by
  rw [setValue_eq]
  unfold Attribute.setValueEval
  rw [hattr]
  simp only []
  have he : ((Attribute.safeSettings settings).2 || attr.controls.any controlEditable) = true := by
    rcases hedit with h | h <;> simp [h]
  rw [he]
  rfl

/-- A rejected `setValue`: the attribute exists, `forceValue` is off, and
no control passes the implemented editability check.  The page is
unchanged and no settle pause happens. -/
theorem setValue_uneditable (page : XrmPage) (attrName : String) (attr : XrmAttribute)
    (value : JSValue) (settings : Option (Nat ⊕ Attribute.SetValueSettings))
    (hattr : getAttributeByName page attrName = some attr)
    (hforce : (Attribute.safeSettings settings).2 = false)
    (hnoedit : attr.controls.any controlEditable = false) :
    Attribute.setValue page attrName value settings =
      { page := page,
        error := some ("Attribute '" ++ attrName ++
          "' has no unlocked and visible control, users can't set a value like that."),
        waited := 0 } := by
  rw [setValue_eq]
  unfold Attribute.setValueEval
  rw [hattr]
  simp only []
  rw [hforce, hnoedit]
  rfl

/-! ## Concrete fixtures -/

/-- A control that passes every visibility/editability check. -/
def editableControl : FormControl :=
  { disabled := false, visible := true, ancestors := [true] }

/-- A control nested three containers deep whose outermost container is
collapsed: parent and grandparent visible, great-grandparent not. -/
def deepControl : FormControl :=
  { disabled := false, visible := true, ancestors := [true, true, false] }

def dtAttr : XrmAttribute :=
  { attrType := "datetime", value := JSValue.vNull, controls := [editableControl],
    format := "date", formattedText := "", dirty := false,
    requiredLevel := "none", fireCount := 0 }

def strAttr : XrmAttribute :=
  { attrType := "string", value := JSValue.vStr "old", controls := [editableControl],
    format := "text", formattedText := "old", dirty := false,
    requiredLevel := "none", fireCount := 0 }

def lockedAttr : XrmAttribute :=
  { strAttr with controls := [{ disabled := true, visible := true, ancestors := [] }] }

def deepAttr : XrmAttribute := { strAttr with controls := [deepControl] }

def optionsetAttr : XrmAttribute :=
  { attrType := "optionset", value := JSValue.vNum 21, controls := [editableControl],
    format := "language", formattedText := "Software", dirty := false,
    requiredLevel := "none", fireCount := 0 }

def sampleGrid : SubGridControl :=
  { rows := [{ id := "{AAA-01}", entityType := "contact" },
             { id := "{BBB-02}", entityType := "contact" }],
    totalRecordCount := 2, entityName := "contact", visible := true }

def samplePage : XrmPage :=
  { attrs := [("birthdate", dtAttr), ("name", strAttr), ("locked", lockedAttr),
              ("nested", deepAttr), ("industrycode", optionsetAttr)],
    grids := [("Contacts", sampleGrid)] }

/-! ## Claim C4 -/

/-- C4: the claim says `getFormattedValue` returns the attribute's
formatted value; the code instead returns `attribute.getFormat()`
(Attribute.ts line 165), contradicting its own doc comment — evaluated
here at an option-set attribute whose formatted value is "Software" but
whose format descriptor is "language".  The "field not found" half of the
claim does hold. -/
theorem c4_getFormattedValue_returns_format :
    Attribute.getFormattedValue samplePage "industrycode" = Except.ok "language" ∧
    optionsetAttr.formattedText = "Software" ∧
    ("language" : String) ≠ "Software" ∧
    Attribute.getFormattedValue samplePage "missing" =
      Except.error "Attribute 'missing' not found on form" := by
  refine ⟨rfl, rfl, by decide, rfl⟩

/-! ## Claim C3 -/

/-- C3 counterexample: the claim says `SubGrid.getRecordCount` raises a
"not found" error when the named subgrid control does not exist; on a form
without that control it instead resolves successfully with `undefined`. -/
theorem c3_counterexample :
    getGridControl samplePage "NoSuchGrid" = none ∧
    SubGrid.getRecordCount samplePage "NoSuchGrid" = Except.ok none := ⟨rfl, rfl⟩

/-- C3 (amended): operations on an absent attribute name raise the
"not found" error synchronously and unmodified, as do
`SubGrid.openNthRecord` and `SubGrid.refresh` on an absent control name;
but `getRecordCount`, `getVisibleRecordCount` and `getEntityName` return
`undefined`, `getRecordIds` returns an empty list, and `isVisible` returns
`false` instead of raising. -/
theorem c3_absent_name_behaviour (p : XrmPage) (nm : String)
    (hg : getGridControl p nm = none) (ha : getAttributeByName p nm = none) :
    SubGrid.getRecordCount p nm = Except.ok none ∧
    SubGrid.getVisibleRecordCount p nm = Except.ok none ∧
    SubGrid.getEntityName p nm = Except.ok none ∧
    SubGrid.getRecordIds p nm = Except.ok [] ∧
    SubGrid.isVisible p nm = Except.ok false ∧
    (∀ k, SubGrid.openNthRecord p nm k =
      Except.error ("Subgrid control '" ++ nm ++ "' not found on form")) ∧
    SubGrid.refresh p nm =
      Except.error ("Subgrid control '" ++ nm ++ "' not found on form") ∧
    Attribute.getValue p nm =
      Except.error ("Attribute '" ++ nm ++ "' not found on form") ∧
    Attribute.getFormattedValue p nm =
      Except.error ("Attribute '" ++ nm ++ "' not found on form") ∧
    Attribute.getAttributeType p nm =
      Except.error ("Attribute '" ++ nm ++ "' not found on form") := by
  unfold SubGrid.getRecordCount SubGrid.getVisibleRecordCount SubGrid.getEntityName
    SubGrid.getRecordIds SubGrid.isVisible SubGrid.openNthRecord SubGrid.refresh
    Attribute.getValue Attribute.getFormattedValue Attribute.getAttributeType
  rw [hg, ha]
  exact ⟨rfl, rfl, rfl, rfl, rfl, fun k => rfl, rfl, rfl, rfl, rfl⟩

/-- C3 witness: the amended behaviour evaluated on the sample form at an
absent name. -/
theorem c3_witness :
    SubGrid.getRecordCount samplePage "NoSuchGrid" = Except.ok none ∧
    SubGrid.getRecordIds samplePage "NoSuchGrid" = Except.ok [] ∧
    SubGrid.isVisible samplePage "NoSuchGrid" = Except.ok false ∧
    SubGrid.openNthRecord samplePage "NoSuchGrid" 0 =
      Except.error "Subgrid control 'NoSuchGrid' not found on form" ∧
    Attribute.getValue samplePage "NoSuchGrid" =
      Except.error "Attribute 'NoSuchGrid' not found on form" := by
  have h := c3_absent_name_behaviour samplePage "NoSuchGrid" rfl rfl
  exact ⟨h.1, h.2.2.2.1, h.2.2.2.2.1, h.2.2.2.2.2.1 0, h.2.2.2.2.2.2.2.1⟩

/-! ## Claim C2 -/

/-- C2 counterexample: the claim requires `setValue` (without
`forceValue`) to fail whenever no control has ALL its ancestor containers
visible at every nesting depth.  The field "nested" has one control,
nested three containers deep with the outermost container invisible, so no
control satisfies the claim's condition — yet the write succeeds, because
the implementation only inspects the parent and the grandparent. -/
theorem c2_counterexample :
    (∀ c ∈ deepAttr.controls, controlEditableSpec c = false) ∧
    (Attribute.setValue samplePage "nested" (JSValue.vStr "x")).error = none ∧
    getAttributeByName (Attribute.setValue samplePage "nested" (JSValue.vStr "x")).page
      "nested" = some { deepAttr with value := JSValue.vStr "x", fireCount := 1 } := by
  refine ⟨?_, rfl, rfl⟩
  intro c hc
  simp only [deepAttr, strAttr, List.mem_singleton] at hc
  subst hc
  rfl

/-- C2 (amended): unless `forceValue` is set, `setValue` fails with the
"no unlocked and visible control" error — leaving the page unchanged, with
no write attempted — exactly when no control of the field passes the
implemented check (not disabled, visible, parent visible when present,
grandparent visible when present; deeper ancestors are not inspected);
with `forceValue` the check is bypassed and the write proceeds. -/
theorem c2_editability_check (page : XrmPage) (attrName : String) (attr : XrmAttribute)
    (value : JSValue) (settings : Option (Nat ⊕ Attribute.SetValueSettings))
    (hattr : getAttributeByName page attrName = some attr) :
    ((Attribute.safeSettings settings).2 = false →
      attr.controls.any controlEditable = false →
      Attribute.setValue page attrName value settings =
        { page := page,
          error := some ("Attribute '" ++ attrName ++
            "' has no unlocked and visible control, users can't set a value like that."),
          waited := 0 }) ∧
    ((Attribute.safeSettings settings).2 = true →
      (Attribute.setValue page attrName value settings).error = none ∧
      (Attribute.setValue page attrName value settings).page =
        setAttr page attrName
          { attr with
            value := if attr.attrType == "datetime" then
                jsNewDate (serializeValueArg value)
              else serializeValueArg value,
            fireCount := attr.fireCount + 1 }) := by
  constructor
  · intro hf hn
    exact setValue_uneditable page attrName attr value settings hattr hf hn
  · intro hf
    rw [setValue_success page attrName attr value settings hattr (Or.inl hf)]
    exact ⟨rfl, rfl⟩

/-- C2 witness: on the sample form, the field "locked" (whose only control
is disabled) rejects an unforced write and keeps its prior value, while a
forced write succeeds. -/
theorem c2_witness :
    (Attribute.setValue samplePage "locked" (JSValue.vStr "x")).error =
      some "Attribute 'locked' has no unlocked and visible control, users can't set a value like that." ∧
    (Attribute.setValue samplePage "locked" (JSValue.vStr "x")).page = samplePage ∧
    (Attribute.setValue samplePage "locked" (JSValue.vStr "x")
      (some (Sum.inr { forceValue := some true }))).error = none := by
  have h1 := (c2_editability_check samplePage "locked" lockedAttr (JSValue.vStr "x")
    none rfl).1 rfl rfl
  have h2 := (c2_editability_check samplePage "locked" lockedAttr (JSValue.vStr "x")
    (some (Sum.inr { forceValue := some true })) rfl).2 rfl
  rw [h1]
  exact ⟨rfl, rfl, h2.1⟩

/-! ## Claim C6 -/

/-- C6 counterexample: the claim says a bare number `n` makes the pause
exactly `n` milliseconds; with `n = 0` the actual pause is 500 ms, because
line 125 computes `settleTime || 500` and 0 is falsy. -/
theorem c6_counterexample :
    (Attribute.setValue samplePage "name" (JSValue.vStr "x") (some (Sum.inl 0))).waited
      = 500 ∧ (500 : Nat) ≠ 0 := ⟨rfl, by decide⟩

/-- C6 (amended): after the write and the change notification the accessor
pauses `settleTime || 500` ms before returning: a bare nonzero number `n`
gives `n`, a structured nonzero `settleTime` value `t` gives `t`, an
absent settle duration gives 500 — but a settle time of 0 (bare or
structured) also gives 500, because 0 is falsy in JavaScript; `forceValue`
defaults to false in all cases. -/
theorem c6_settle_behaviour (page : XrmPage) (attrName : String) (attr : XrmAttribute)
    (value : JSValue)
    (hattr : getAttributeByName page attrName = some attr)
    (hedit : attr.controls.any controlEditable = true) :
    (∀ n : Nat, n ≠ 0 →
      (Attribute.setValue page attrName value (some (Sum.inl n))).waited = n) ∧
    (∀ s : Attribute.SetValueSettings, ∀ t : Nat, s.settleTime = some t → t ≠ 0 →
      (Attribute.setValue page attrName value (some (Sum.inr s))).waited = t) ∧
    ((Attribute.setValue page attrName value none).waited = 500) ∧
    (∀ s : Attribute.SetValueSettings, s.settleTime = none →
      (Attribute.setValue page attrName value (some (Sum.inr s))).waited = 500) ∧
    ((Attribute.setValue page attrName value (some (Sum.inl 0))).waited = 500) ∧
    (∀ s : Attribute.SetValueSettings, s.settleTime = some 0 →
      (Attribute.setValue page attrName value (some (Sum.inr s))).waited = 500) ∧
    (Attribute.safeSettings none).2 = false ∧
    (∀ n, (Attribute.safeSettings (some (Sum.inl n))).2 = false) ∧
    (∀ s : Attribute.SetValueSettings, s.forceValue = none →
      (Attribute.safeSettings (some (Sum.inr s))).2 = false) := by
  have hw : ∀ settings, (Attribute.setValue page attrName value settings).waited =
      Attribute.settleWait settings := by
    intro settings
    rw [setValue_success page attrName attr value settings hattr (Or.inr hedit)]
  refine ⟨?_, ?_, ?_, ?_, ?_, ?_, rfl, fun n => rfl, ?_⟩
  · intro n hn
    rw [hw]
    unfold Attribute.settleWait Attribute.safeSettings
    simp only []
    rw [if_neg hn]
  · intro s t hs hn
    rw [hw]
    unfold Attribute.settleWait Attribute.safeSettings
    simp only [hs]
    rw [if_neg (by simpa using hn)]
    rfl
  · rw [hw]; rfl
  · intro s hs
    rw [hw]
    unfold Attribute.settleWait Attribute.safeSettings
    simp only [hs]
    rfl
  · rw [hw]; rfl
  · intro s hs
    rw [hw]
    unfold Attribute.settleWait Attribute.safeSettings
    simp only [hs]
    rfl
  · intro s hs
    unfold Attribute.safeSettings
    simp only [hs]
    rfl

/-- C6 witness: the settle behaviour evaluated on the sample form. -/
theorem c6_witness :
    (Attribute.setValue samplePage "name" (JSValue.vStr "x") (some (Sum.inl 250))).waited
      = 250 ∧
    (Attribute.setValue samplePage "name" (JSValue.vStr "x")
      (some (Sum.inr { settleTime := some 750 }))).waited = 750 ∧
    (Attribute.setValue samplePage "name" (JSValue.vStr "x")).waited = 500 := by
  have h := c6_settle_behaviour samplePage "name" strAttr (JSValue.vStr "x") rfl rfl
  exact ⟨h.1 250 (by decide), h.2.1 _ 750 rfl (by decide), h.2.2.1⟩

/-! ## Claim C1 -/

/-- C1: for a `datetime` attribute with an editable control and any valid
Date value, `setValue` (which encodes the Date as an ISO string before
crossing the automation boundary and decodes it with `new Date` before
writing) followed by `getValue` (which encodes the stored Date as an ISO
string and reconstructs a Date on return) yields a Date equal to the one
written, to millisecond precision. -/
theorem c1_datetime_roundtrip (page : XrmPage) (attrName : String) (attr : XrmAttribute)
    (ms : Int)
    (hattr : getAttributeByName page attrName = some attr)
    (htype : attr.attrType = "datetime")
    (hedit : attr.controls.any controlEditable = true)
    (hms : ms.natAbs ≤ 8640000000000000) :
    (Attribute.setValue page attrName (JSValue.vDate ms)).error = none ∧
    Attribute.getValue (Attribute.setValue page attrName (JSValue.vDate ms)).page attrName
      = Except.ok (JSValue.vDate ms) := by
  have hs := setValue_success page attrName attr (JSValue.vDate ms) none hattr (Or.inr hedit)
  have htb : (attr.attrType == "datetime") = true := by rw [htype]; rfl
  have hval : (if attr.attrType == "datetime" then
      jsNewDate (serializeValueArg (JSValue.vDate ms))
    else serializeValueArg (JSValue.vDate ms)) = JSValue.vDate ms := by
    rw [if_pos htb]
    unfold serializeValueArg jsNewDate
    simp only []
    rw [jsDateParse_jsToISOString ms hms]
  rw [hval] at hs
  rw [hs]
  refine ⟨rfl, ?_⟩
  unfold Attribute.getValue
  rw [getAttributeByName_setAttr page attrName _ attr hattr]
  simp only []
  rw [htb]
  simp only [if_true]
  rw [jsDateParse_jsToISOString ms hms]

/-- C1 witness: a concrete round trip on the sample form's datetime field. -/
theorem c1_witness :
    (Attribute.setValue samplePage "birthdate" (JSValue.vDate 86400123)).error = none ∧
    Attribute.getValue
      (Attribute.setValue samplePage "birthdate" (JSValue.vDate 86400123)).page "birthdate"
      = Except.ok (JSValue.vDate 86400123) :=
  c1_datetime_roundtrip samplePage "birthdate" dtAttr 86400123 rfl rfl rfl (by decide)

/-! ## Claim C5 -/

/-- A rejected `setValue` leaves the page unchanged. -/
theorem setValue_error_page (page : XrmPage) (attrName : String) (value : JSValue)
    (settings : Option (Nat ⊕ Attribute.SetValueSettings)) (e : String)
    (h : (Attribute.setValue page attrName value settings).error = some e) :
    (Attribute.setValue page attrName value settings).page = page := by
  rw [setValue_eq] at h ⊢
  cases hev : Attribute.setValueEval page attrName (serializeValueArg value)
      (Attribute.safeSettings settings).2 with
  | error e2 => rfl
  | ok p2 => rw [hev] at h; simp at h

/-- C5: `setValues` applies `setValue` to the entries sequentially in
iteration order and is not atomic: when the writes over `pre` succeed
(reaching page `mid`) and the next entry `bad` rejects with `e`, the whole
call rejects with `e`, the page stays at `mid` (the writes over `pre`
remain applied, with no rollback), and the entries of `rest` are never
attempted (the result does not depend on `rest`). -/
theorem c5_setValues_sequential (settings : Option (Nat ⊕ Attribute.SetValueSettings))
    (bad : String × JSValue) (rest : List (String × JSValue)) :
    ∀ (pre : List (String × JSValue)) (page mid : XrmPage) (e : String),
    Attribute.setValuesRun page pre settings = (mid, none) →
    (Attribute.setValue mid bad.1 bad.2 settings).error = some e →
    Attribute.setValuesRun page (pre ++ bad :: rest) settings = (mid, some e) := by
  obtain ⟨bn, bv⟩ := bad
  intro pre
  induction pre with
  | nil =>
    intro page mid e hpre herr
    have hmid : page = mid := by
      have h2 : (page, (none : Option String)) = (mid, none) := hpre
      exact ((Prod.mk.injEq _ _ _ _).mp h2).1
    subst hmid
    simp only [List.nil_append]
    rw [Attribute.setValuesRun]
    rw [herr]
    show ((Attribute.setValue page bn bv settings).page, some e) = (page, some e)
    rw [setValue_error_page page bn bv settings e herr]
  | cons hd tl ih =>
    obtain ⟨hn, hv⟩ := hd
    intro page mid e hpre herr
    rw [Attribute.setValuesRun] at hpre
    simp only [List.cons_append]
    rw [Attribute.setValuesRun]
    cases hr : (Attribute.setValue page hn hv settings).error with
    | some e2 =>
      rw [hr] at hpre
      have h2 := congrArg Prod.snd hpre
      simp at h2
    | none =>
      rw [hr] at hpre
      exact ih _ mid e hpre herr

/-- The page after the first (successful) write of the C5 witness run. -/
def c5MidPage : XrmPage :=
  setAttr samplePage "name" { strAttr with value := JSValue.vStr "A", fireCount := 1 }

/-- C5 witness: on the sample form, writing "name" then the uneditable
"locked" then "name" again stops at "locked": the first write remains
applied, the error is surfaced, the third entry never runs. -/
theorem c5_witness :
    Attribute.setValuesRun samplePage
      ([("name", JSValue.vStr "A")] ++
        ("locked", JSValue.vStr "B") :: [("name", JSValue.vStr "C")]) =
      (c5MidPage,
        some "Attribute 'locked' has no unlocked and visible control, users can't set a value like that.") ∧
    getAttributeByName c5MidPage "name" =
      some { strAttr with value := JSValue.vStr "A", fireCount := 1 } := by
  refine ⟨?_, rfl⟩
  exact c5_setValues_sequential none ("locked", JSValue.vStr "B")
    [("name", JSValue.vStr "C")] [("name", JSValue.vStr "A")] samplePage c5MidPage _ rfl rfl

/-! ## Claim C9 -/

/-- C9: `getRecordIds` returns one identifier per visible row, in row
order, each with its curly braces removed and lowercased; on a subgrid
scoped to a parent with exactly two linked children (two rows, total
record count 2) it returns exactly those two normalized identifiers and
`getRecordCount` returns 2. -/
theorem c9_recordIds_normalized (p : XrmPage) (nm : String) (g : SubGridControl)
    (hg : getGridControl p nm = some g) :
    SubGrid.getRecordIds p nm = Except.ok (g.rows.map (fun r => normalizeId r.id)) ∧
    (∀ r1 r2 : SubGridRow, g.rows = [r1, r2] → g.totalRecordCount = 2 →
      SubGrid.getRecordIds p nm = Except.ok [normalizeId r1.id, normalizeId r2.id] ∧
      SubGrid.getRecordCount p nm = Except.ok (some 2)) := by
  constructor
  · unfold SubGrid.getRecordIds
    rw [hg]
  · intro r1 r2 hr ht
    constructor
    · unfold SubGrid.getRecordIds
      rw [hg]
      simp only [hr]
      rfl
    · unfold SubGrid.getRecordCount
      rw [hg]
      simp only [ht]

/-- C9 witness: the sample form's "Contacts" subgrid holds two rows with
braced upper-case identifiers; the reader returns them normalized and the
count is 2. -/
theorem c9_witness :
    SubGrid.getRecordIds samplePage "Contacts" = Except.ok ["aaa-01", "bbb-02"] ∧
    SubGrid.getRecordCount samplePage "Contacts" = Except.ok (some 2) := by
  have h := (c9_recordIds_normalized samplePage "Contacts" sampleGrid rfl).2
    { id := "{AAA-01}", entityType := "contact" }
    { id := "{BBB-02}", entityType := "contact" } rfl rfl
  obtain ⟨h1, h2⟩ := h
  refine ⟨?_, h2⟩
  rw [h1]
  rfl

/-! ## Claim C7 -/

/-- Splitting a space-separated concatenation: when neither left part
contains a space, the parts agree. -/
theorem split_at_space : ∀ l1 l2 r1 r2 : List Char,
    (∀ c ∈ l1, c ≠ ' ') → (∀ c ∈ l2, c ≠ ' ') →
    l1 ++ ' ' :: r1 = l2 ++ ' ' :: r2 → l1 = l2 ∧ r1 = r2 := by
  intro l1
  induction l1 with
  | nil =>
    intro l2 r1 r2 h1 h2 heq
    cases l2 with
    | nil => simpa using heq
    | cons c cs =>
      simp only [List.nil_append, List.cons_append, List.cons.injEq] at heq
      exact absurd heq.1.symm (h2 c (by simp))
  | cons a as ih =>
    intro l2 r1 r2 h1 h2 heq
    cases l2 with
    | nil =>
      simp only [List.cons_append, List.nil_append, List.cons.injEq] at heq
      exact absurd heq.1 (h1 a (by simp))
    | cons b bs =>
      simp only [List.cons_append, List.cons.injEq] at heq
      obtain ⟨hab, htl⟩ := heq
      obtain ⟨hl, hr⟩ := ih bs r1 r2 (fun c hc => h1 c (by simp [hc]))
        (fun c hc => h2 c (by simp [hc])) htl
      subst hab
      rw [hl]
      exact ⟨rfl, hr⟩

/-- Two `"<prefix> <k> <timestamp>"` character lists with different middle
numbers differ, whatever the timestamps. -/
theorem name_concat_ne (pre : List Char) (i j t1 t2 : Nat) (hij : i ≠ j) :
    pre ++ ' ' :: ((jsNatToString i).data ++ ' ' :: (jsNatToString t1).data) ≠
    pre ++ ' ' :: ((jsNatToString j).data ++ ' ' :: (jsNatToString t2).data) := by
  intro h
  have h2 := List.append_cancel_left h
  simp only [List.cons.injEq, true_and] at h2
  obtain ⟨hd, -⟩ := split_at_space _ _ _ _ (jsNatToString_no_space i)
    (jsNatToString_no_space j) h2
  have hi := digitsToNat_jsNatToString i
  have hj := digitsToNat_jsNatToString j
  rw [hd] at hi
  omega

theorem jsNatToString_data_ne_nil (n : Nat) : (jsNatToString n).data ≠ [] := by
  show natDigitsAux (n + 1) n ≠ []
  rw [natDigitsAux]
  by_cases h : n < 10
  · rw [if_pos h]; simp
  · rw [if_neg h]; simp

theorem append_jsNat_ne_empty (s : String) (n : Nat) : s ++ jsNatToString n ≠ "" := by
  intro h
  have h2 := congrArg String.data h
  rw [String.data_append] at h2
  have h4 : ("" : String).data = [] := rfl
  rw [h4] at h2
  exact jsNatToString_data_ne_nil n (List.append_eq_nil.mp h2).2

theorem strTruthy_append_jsNat (s : String) (n : Nat) :
    strTruthy (some (s ++ jsNatToString n)) = true := by
  have h := append_jsNat_ne_empty s n
  simp [strTruthy, h]

/-- The name `create` produces when the name option is a truthy string. -/
theorem create_name_truthy (o : CreateAccountOptions) (X : String) (t : Nat)
    (hX : strTruthy (some X) = true) :
    (AccountFactory.create { o with name := some X } t).name =
      X ++ " " ++ jsNatToString t := by
  unfold AccountFactory.create
  simp only [hX, if_true]
  rfl

/-- C7: `createBulk(n, opts)` returns exactly `n` payloads; their primary
names are pairwise distinct (each carries a distinct `<index>` suffix
before the timestamp); and every field other than the name is identical
across the payloads and derived from `opts` alone (it equals the
corresponding field of a `create(opts)` payload, whatever the clock
said). -/
theorem c7_createBulk_spec (count : Nat) (options : CreateAccountOptions) (tss : Nat → Nat) :
    (AccountFactory.createBulk count options tss).length = count ∧
    ((AccountFactory.createBulk count options tss).map (fun a => a.name)).Pairwise
      (fun a b => a ≠ b) ∧
    (∀ a ∈ AccountFactory.createBulk count options tss,
      { a with name := "" } = { AccountFactory.create options 0 with name := "" }) := by
  refine ⟨?_, ?_, ?_⟩
  · unfold AccountFactory.createBulk
    simp
  · unfold AccountFactory.createBulk
    rw [List.map_map, List.pairwise_map]
    apply List.Pairwise.imp ?_ (List.pairwise_lt_range count)
    intro i j hlt
    simp only [Function.comp]
    by_cases hb : strTruthy options.name = true
    · rw [if_pos hb, if_pos hb]
      rw [create_name_truthy options _ (tss i) (strTruthy_append_jsNat _ _)]
      rw [create_name_truthy options _ (tss j) (strTruthy_append_jsNat _ _)]
      intro heq
      have hdata := congrArg String.data heq
      have hsp : (" " : String).data = [' '] := rfl
      simp only [String.data_append, hsp, List.append_assoc, List.singleton_append] at hdata
      exact name_concat_ne (options.name.getD "").data (i + 1) (j + 1) (tss i) (tss j)
        (by omega) (by
          simpa using hdata)
    · rw [if_neg hb, if_neg hb]
      rw [create_name_truthy options _ (tss i) (strTruthy_append_jsNat _ _)]
      rw [create_name_truthy options _ (tss j) (strTruthy_append_jsNat _ _)]
      intro heq
      have hdata := congrArg String.data heq
      have hsp : (" " : String).data = [' '] := rfl
      have hlit : ("Bulk Test Account " : String).data =
        ("Bulk Test Account" : String).data ++ [' '] := rfl
      simp only [String.data_append, hsp, hlit, List.append_assoc,
        List.singleton_append] at hdata
      exact name_concat_ne ("Bulk Test Account" : String).data (i + 1) (j + 1)
        (tss i) (tss j) (by omega) (by simpa using hdata)
  · intro a ha
    unfold AccountFactory.createBulk at ha
    obtain ⟨i, -, rfl⟩ := List.mem_map.mp ha
    rfl

/-! ## Claim C8 -/

theorem strTruthy_some_of_ne (s : String) (h : s ≠ "") : strTruthy (some s) = true := by
  simp [strTruthy, h]

/-- C8: a (nonempty) relationship identifier option produces the
corresponding OData binding key whose value is the relative path
`/<collection>(<identifier>)` — `/accounts(...)` for `parentAccountId`,
`/contacts(...)` for `primaryContactId`, `/accounts(...)` for a contact's
`accountId` — and an absent identifier option produces no binding key. -/
theorem c8_relationship_bindings (o : CreateAccountOptions) (co : CreateContactOptions)
    (ts : Nat) :
    (∀ pid, o.parentAccountId = some pid → pid ≠ "" →
      (AccountFactory.create o ts).parentaccountid_bind =
        some ("/accounts(" ++ pid ++ ")")) ∧
    (∀ cid, o.primaryContactId = some cid → cid ≠ "" →
      (AccountFactory.create o ts).primarycontactid_bind =
        some ("/contacts(" ++ cid ++ ")")) ∧
    (∀ aid, co.accountId = some aid → aid ≠ "" →
      (ContactFactory.create co ts).parentcustomerid_account_bind =
        some ("/accounts(" ++ aid ++ ")")) ∧
    (o.parentAccountId = none →
      (AccountFactory.create o ts).parentaccountid_bind = none) ∧
    (o.primaryContactId = none →
      (AccountFactory.create o ts).primarycontactid_bind = none) ∧
    (co.accountId = none →
      (ContactFactory.create co ts).parentcustomerid_account_bind = none) := by
  refine ⟨?_, ?_, ?_, ?_, ?_, ?_⟩
  · intro pid hp hne
    unfold AccountFactory.create
    simp only [hp, strTruthy_some_of_ne pid hne, if_true]
    rfl
  · intro cid hp hne
    unfold AccountFactory.create
    simp only [hp, strTruthy_some_of_ne cid hne, if_true]
    rfl
  · intro aid hp hne
    unfold ContactFactory.create
    simp only [hp, strTruthy_some_of_ne aid hne, if_true]
    rfl
  · intro hp
    unfold AccountFactory.create
    simp only [hp]
    rfl
  · intro hp
    unfold AccountFactory.create
    simp only [hp]
    rfl
  · intro hp
    unfold ContactFactory.create
    simp only [hp]
    rfl

/-- C8 witness: concrete options with and without identifiers. -/
theorem c8_witness :
    (AccountFactory.create
        { name := some "Child", parentAccountId := some "11-22",
          primaryContactId := some "33-44" } 99).parentaccountid_bind =
      some "/accounts(11-22)" ∧
    (AccountFactory.create
        { name := some "Child", parentAccountId := some "11-22",
          primaryContactId := some "33-44" } 99).primarycontactid_bind =
      some "/contacts(33-44)" ∧
    (ContactFactory.create { firstname := some "Jo", accountId := some "55-66" }
        99).parentcustomerid_account_bind = some "/accounts(55-66)" ∧
    (AccountFactory.create { name := some "Solo" } 99).parentaccountid_bind = none := by
  have h1 := c8_relationship_bindings
    { name := some "Child", parentAccountId := some "11-22", primaryContactId := some "33-44" }
    { firstname := some "Jo", accountId := some "55-66" } 99
  have h2 := c8_relationship_bindings { name := some "Solo" }
    { firstname := some "Jo", accountId := some "55-66" } 99
  exact ⟨h1.1 "11-22" rfl (by decide), h1.2.1 "33-44" rfl (by decide),
    h1.2.2.1 "55-66" rfl (by decide), h2.2.2.2.1 rfl⟩

/-! ## Claim C10 -/

/-- C10 (implicit): optional string-valued fields given as the empty
string are dropped from the payload entirely (the empty string is falsy),
while the numeric options `industry`, `revenue`, `employees` and
`preferredContactMethod` are copied verbatim whenever present — so a
numeric 0 is preserved while an empty string is discarded. -/
theorem c10_falsy_strings_dropped (o : CreateAccountOptions) (co : CreateContactOptions)
    (ts : Nat) :
    (o.phone = some "" → (AccountFactory.create o ts).telephone1 = none) ∧
    (o.email = some "" → (AccountFactory.create o ts).emailaddress1 = none) ∧
    (o.city = some "" → (AccountFactory.create o ts).address1_city = none) ∧
    (o.description = some "" → (AccountFactory.create o ts).description = none) ∧
    (co.phone = some "" → (ContactFactory.create co ts).telephone1 = none) ∧
    (co.email = some "" → (ContactFactory.create co ts).emailaddress1 = none) ∧
    (co.jobTitle = some "" → (ContactFactory.create co ts).jobtitle = none) ∧
    ((AccountFactory.create o ts).industrycode = o.industry) ∧
    ((AccountFactory.create o ts).revenue = o.revenue) ∧
    ((AccountFactory.create o ts).numberofemployees = o.employees) ∧
    ((ContactFactory.create co ts).preferredcontactmethodcode =
      co.preferredContactMethod) := by
  refine ⟨?_, ?_, ?_, ?_, ?_, ?_, ?_, rfl, rfl, rfl, rfl⟩ <;>
    · intro hp
      first
        | (unfold AccountFactory.create; simp [hp, strTruthy])
        | (unfold ContactFactory.create; simp [hp, strTruthy])

/-- C10 witness: an account with empty-string phone/city and zero revenue
and employee count, and a contact with preferred method 0: the strings are
dropped, the zeroes preserved. -/
theorem c10_witness :
    (AccountFactory.create
        { phone := some "", city := some "", revenue := some 0,
          employees := some 0 } 7).telephone1 = none ∧
    (AccountFactory.create
        { phone := some "", city := some "", revenue := some 0,
          employees := some 0 } 7).address1_city = none ∧
    (AccountFactory.create
        { phone := some "", city := some "", revenue := some 0,
          employees := some 0 } 7).revenue = some 0 ∧
    (AccountFactory.create
        { phone := some "", city := some "", revenue := some 0,
          employees := some 0 } 7).numberofemployees = some 0 ∧
    (ContactFactory.create { preferredContactMethod := some 1 }
        7).preferredcontactmethodcode = some 1 := by
  have h := c10_falsy_strings_dropped
    { phone := some "", city := some "", revenue := some 0, employees := some 0 }
    { preferredContactMethod := some 1 } 7
  exact ⟨h.1 rfl, h.2.2.1 rfl, h.2.2.2.2.2.2.2.2.1, h.2.2.2.2.2.2.2.2.2.1,
    h.2.2.2.2.2.2.2.2.2.2⟩
